import Mathlib

/-!
# Water-Level-Sensor telemetry pipeline: verification development

A shallow embedding of the telemetry core of the Water-Level-Sensor
repository, together with theorems settling the specification claims.

Embedded components:
* the device-side RS-485 frame decoder
  (`src/ReadanalogdataNEW/ReadanalogdataNEW.ino`: `getNodeName`, `loop`),
* the server ingestion and query routes
  (`src/server/routes/authRoutes.js`: `POST /api/sensor-data`,
  `GET /sensor-data`) over a model of the MySQL `sensor_data` table,
* the retention job (`deleteOldSensorData` and its cron schedule),
* the dashboard aggregation functions (`filteredData`, `latestValue`,
  `calculateDailyAverage`, `calculateDailyMinMax`).

Machine integers are modelled as `Nat`/`Int`; JS numbers appearing in
aggregation arithmetic as `ℚ`; timestamps as `Int` milliseconds since
the epoch (the value of `Date.getTime()`).
-/

namespace WLS

/-! ## Frame decoder (device side)

From `src/ReadanalogdataNEW/ReadanalogdataNEW.ino`.  The device feeds
RS-485 bytes one at a time into a 10-byte buffer; once 5 bytes are
buffered it checks the start byte `0x3A`, decodes the frame, sends the
JSON payload to the backend, and resets the buffer index to 0. -/

/-- Fixed device identity constants from the sketch. -/
def USER_ID : String := "38"

def ESP32_SERIAL_NUMBER : String := "1"

def SENSOR_TYPE : String := "WaterLevel"

/-- `getNodeName` from the sketch: the fixed closed location table. -/
def getNodeName (nodeChar : Char) : String :=
  if nodeChar = 'A' then "Qwave"
  else if nodeChar = 'B' then "Factory"
  else if nodeChar = 'C' then "Warehouse"
  else if nodeChar = 'D' then "Lab"
  else "Unknown"

/-- The JSON body built in `sendSensorData` and posted to the backend. -/
structure DevicePayload where
  userId : String
  esp32Serial : String
  nodeName : String
  sensorType : String
  value : Nat
  deriving Repr, DecidableEq

/-- One iteration of the byte-receiving logic in `loop`: append the byte
to the buffer (guarded by the 10-byte capacity check), and once the
buffer index reaches 5, either decode and emit a payload (start byte
`0x3A` present) or emit nothing (start byte mismatch); in both cases
the buffer index resets to 0.  The buffer is the list of buffered
bytes; its length is `bufferIndex`. -/
def feedByte (buf : List Nat) (b : Nat) : List Nat × Option DevicePayload :=
  let buf1 := if buf.length < 10 then buf ++ [b] else buf
  if buf1.length = 5 then
    if buf1.headD 0 = 0x3A then
      let nodeChar : Char := Char.ofNat (buf1.getD 1 0)
      let value : Nat := ((buf1.getD 3 0) <<< 8) ||| (buf1.getD 2 0)
      ([], some ⟨USER_ID, ESP32_SERIAL_NUMBER, getNodeName nodeChar, SENSOR_TYPE, value⟩)
    else ([], none)
  else (buf1, none)

/-- Feeding a whole byte stream through `feedByte`, collecting the
emitted payloads in order. -/
def feedBytes (buf : List Nat) : List Nat → List Nat × List DevicePayload
  | [] => (buf, [])
  | b :: rest =>
    let step := feedByte buf b
    let next := feedBytes step.1 rest
    (next.1, step.2.toList ++ next.2)

/-! ## Dashboard rows and sorting

From the dashboard page (the unnamed React source): rows fetched from
`GET /auth/sensor-data`, already scoped to one owner by the server.
Only the fields the dashboard reads are modelled; `id` is the table's
primary key and keeps otherwise-equal rows distinct. -/

structure SensorRow where
  id : Nat
  node_name : String
  sensor_value : ℚ
  timestamp : Int
  deriving Repr, DecidableEq

/-- Insert into a list sorted descending by `key` (an element goes in
front of the first element whose key is not larger). -/
def insertByKeyDesc {α : Type} (key : α → Int) (a : α) : List α → List α
  | [] => [a]
  | x :: xs => if key x ≤ key a then a :: x :: xs else x :: insertByKeyDesc key a xs

/-- Stable sort, descending by `key`: the model of
`.sort((a, b) => b.timestamp - a.timestamp)`. -/
def sortByKeyDesc {α : Type} (key : α → Int) : List α → List α
  | [] => []
  | x :: xs => insertByKeyDesc key x (sortByKeyDesc key xs)

/-- `filteredData` from the dashboard: keep rows of the selected node
whose timestamp is within the trailing `timeRange` minutes of `now`,
most recent first. -/
def filteredData (sensorData : List SensorRow) (selectedNode : String)
    (timeRange : Int) (now : Int) : List SensorRow :=
  sortByKeyDesc (fun r => r.timestamp)
    (sensorData.filter (fun d =>
      d.node_name == selectedNode &&
      decide (now - timeRange * 60 * 1000 ≤ d.timestamp)))

/-- The `latestValue` effect: the first element of `filteredData` when
non-empty, otherwise 0. -/
def latestValue : List SensorRow → ℚ
  | latest :: _ => latest.sensor_value
  | [] => 0

/-! ## Daily grouping

The dashboard groups by
`new Date(item.timestamp).toLocaleDateString("en-US", { timeZone: "Asia/Bangkok" })`.
Asia/Bangkok is a fixed UTC+7 zone with no daylight saving, and the
`M/D/YYYY` strings produced are equal exactly when the UTC+7 calendar
days are equal, so the grouping key is modelled as that day number. -/

def dayKey (t : Int) : Int := (t + 7 * 3600000).fdiv 86400000

/-- Accumulator of the `groupedData[date]` object in
`calculateDailyAverage`: running total and count. -/
structure AvgAcc where
  total : ℚ
  count : ℚ
  deriving Repr, DecidableEq

/-- `groupedData[date].total += v; groupedData[date].count += 1`. -/
def avgStep (a : AvgAcc) (v : ℚ) : AvgAcc := ⟨a.total + v, a.count + 1⟩

/-- First reading of a day: `{ total: 0, count: 0 }` then the update,
giving total `v` and count `1`. -/
def avgInit (v : ℚ) : AvgAcc := ⟨v, 1⟩

/-- Accumulator of the `groupedData[date]` object in
`calculateDailyMinMax`. -/
structure MinMaxAcc where
  minv : ℚ
  maxv : ℚ
  deriving Repr, DecidableEq

/-- `min = Math.min(min, v); max = Math.max(max, v)`. -/
def mmStep (a : MinMaxAcc) (v : ℚ) : MinMaxAcc := ⟨min a.minv v, max a.maxv v⟩

/-- First reading of a day: `{ min: v, max: v }`. -/
def mmInit (v : ℚ) : MinMaxAcc := ⟨v, v⟩

/-- The JS object used as `groupedData`, as an association list keeping
insertion order of keys: an existing key is updated in place, a new key
is appended. -/
def updAssoc {β : Type} (step : β → ℚ → β) (init : ℚ → β) (k : Int) (v : ℚ) :
    List (Int × β) → List (Int × β)
  | [] => [(k, init v)]
  | (k1, a) :: rest =>
    if k1 = k then (k1, step a v) :: rest
    else (k1, a) :: updAssoc step init k v rest

/-- Association-list lookup (first match). -/
def lookupA {β : Type} : List (Int × β) → Int → Option β
  | [], _ => none
  | (k1, a) :: rest, k => if k1 = k then some a else lookupA rest k

/-- `calculateDailyAverage` from the dashboard: filter to the selected
node, group by Bangkok calendar day, and emit `total / count` per day. -/
def calculateDailyAverage (selectedNode : String) (data : List SensorRow) :
    List (Int × ℚ) :=
  let fd := data.filter (fun item => item.node_name == selectedNode)
  let grouped := fd.foldl
    (fun g item => updAssoc avgStep avgInit (dayKey item.timestamp) item.sensor_value g) []
  grouped.map (fun p => (p.1, p.2.total / p.2.count))

/-- `calculateDailyMinMax` from the dashboard: same filter and grouping,
emitting the running min and max per day. -/
def calculateDailyMinMax (selectedNode : String) (data : List SensorRow) :
    List (Int × ℚ × ℚ) :=
  let fd := data.filter (fun item => item.node_name == selectedNode)
  let grouped := fd.foldl
    (fun g item => updAssoc mmStep mmInit (dayKey item.timestamp) item.sensor_value g) []
  grouped.map (fun p => (p.1, p.2.minv, p.2.maxv))

/-- Specification helper: the values of the selected node's readings
falling on Bangkok day `d`, in data order. -/
def dayValues (selectedNode : String) (d : Int) (data : List SensorRow) : List ℚ :=
  (data.filter (fun r => r.node_name == selectedNode && dayKey r.timestamp == d)).map
    (fun r => r.sensor_value)

/-- Specification helper: the values carried by key `k` in a key-value
stream, in stream order. -/
def valuesOf (k : Int) (pairs : List (Int × ℚ)) : List ℚ :=
  (pairs.filter (fun p => p.1 == k)).map (fun p => p.2)

/-- The grouping loop over a key-value stream, starting from `g`. -/
def foldGroups {β : Type} (step : β → ℚ → β) (init : ℚ → β)
    (g : List (Int × β)) (pairs : List (Int × ℚ)) : List (Int × β) :=
  pairs.foldl (fun g2 p => updAssoc step init p.1 p.2 g2) g

/-- The reading set of the specification's daily-aggregation example:
two readings (10 and 20) on Bangkok day 0 and one reading (30) on
Bangkok day 1. -/
def exampleRows : List SensorRow :=
  [⟨1, "Qwave", 10, 0⟩, ⟨2, "Qwave", 20, 1000⟩, ⟨3, "Qwave", 30, 86400000⟩]

/-! ## Server: store model and sensor routes

From `src/server/routes/authRoutes.js` and the `sensor_data` schema in
the repository's database setup guide:
`user_id INT NOT NULL` (foreign key) and the remaining columns nullable,
`timestamp` set server-side at insert.  The route handler performs no
field validation; `db.query` escapes a JS `undefined` bind parameter to
SQL `NULL` (sqlstring escaping used by mysql2's `query`), so a missing
body field reaches the table as `NULL`: the INSERT fails only when the
`NULL` lands in the `NOT NULL` column `user_id`. -/

/-- A `POST /auth/api/sensor-data` request body; a field absent from the
JSON destructures to `undefined`, modelled as `none`. -/
structure SensorPostBody where
  userId : Option String
  esp32Serial : Option String
  nodeName : Option String
  sensorType : Option String
  value : Option ℚ
  deriving Repr, DecidableEq

/-- A row of the `sensor_data` table.  `user_id` is `NOT NULL`; the
other payload columns are nullable. -/
structure StoredRow where
  id : Nat
  user_id : String
  esp32_serial : Option String
  node_name : Option String
  sensor_type : Option String
  sensor_value : Option ℚ
  timestamp : Int
  deriving Repr, DecidableEq

/-- The `sensor_data` table with its auto-increment counter. -/
structure Store where
  rows : List StoredRow
  nextId : Nat
  deriving Repr, DecidableEq

structure HttpResponse where
  status : Nat
  message : String
  deriving Repr, DecidableEq

/-- The INSERT issued by the route: appends one row with a fresh id and
the server-side timestamp, or fails on a `NULL` `user_id`. -/
def insertSensorData (st : Store) (body : SensorPostBody) (now : Int) :
    Except String Store :=
  match body.userId with
  | none => Except.error "Column user_id cannot be null"
  | some uid =>
    Except.ok ⟨st.rows ++ [⟨st.nextId, uid, body.esp32Serial, body.nodeName,
      body.sensorType, body.value, now⟩], st.nextId + 1⟩

/-- The `POST /api/sensor-data` handler: 201 on successful insert, 500
with the store unchanged when the query throws. -/
def postSensorData (st : Store) (body : SensorPostBody) (now : Int) :
    Store × HttpResponse :=
  match insertSensorData st body now with
  | Except.ok st1 => (st1, ⟨201, "Sensor data saved successfully"⟩)
  | Except.error _ => (st, ⟨500, "Error saving sensor data"⟩)

/-- The `GET /sensor-data` handler body:
`SELECT * FROM sensor_data WHERE user_id = ? ORDER BY timestamp DESC`,
with `?` the id resolved from the verified JWT by `authenticateToken`. -/
def getSensorData (st : Store) (ownerId : String) : List StoredRow :=
  sortByKeyDesc (fun r => r.timestamp)
    (st.rows.filter (fun r => r.user_id == ownerId))

/-- The two sensor routes and whether the source attaches the
`authenticateToken` middleware to them:
`router.post("/api/sensor-data", async (req, res) => ...)` has no
middleware, `router.get("/sensor-data", authenticateToken, ...)` does. -/
inductive SensorRoute
  | ingest
  | query
  deriving Repr, DecidableEq

def usesAuthMiddleware : SensorRoute → Bool
  | SensorRoute.ingest => false
  | SensorRoute.query => true

/-! ## Retention job

From `deleteOldSensorData` in the server library file:
`DELETE FROM sensor_data WHERE timestamp < NOW() - INTERVAL 1 DAY`,
scheduled by `cron.schedule("0 0 * * *", ...)`. -/

/-- The rows remaining after one purge run at time `now`. -/
def deleteOldSensorData (now : Int) (rows : List StoredRow) : List StoredRow :=
  rows.filter (fun r => !(decide (r.timestamp < now - 86400000)))

/-- One field of a cron expression: `*` or a single numeral. -/
inductive CronField
  | star
  | exact (n : Nat)
  deriving Repr, DecidableEq

def CronField.matches : CronField → Nat → Bool
  | CronField.star, _ => true
  | CronField.exact m, n => m == n

/-- A five-field cron expression (minute, hour, day of month, month,
day of week). -/
structure CronSchedule where
  minute : CronField
  hour : CronField
  dayOfMonth : CronField
  month : CronField
  dayOfWeek : CronField
  deriving Repr, DecidableEq

/-- `"0 0 * * *"`: the telemetry-cleanup schedule in the server entry
file. -/
def sensorCleanupSchedule : CronSchedule :=
  ⟨CronField.exact 0, CronField.exact 0, CronField.star, CronField.star, CronField.star⟩

/-- Whether a schedule fires at a given wall-clock instant. -/
def CronSchedule.fires (s : CronSchedule)
    (minute hour dayOfMonth month dayOfWeek : Nat) : Bool :=
  s.minute.matches minute && s.hour.matches hour &&
  s.dayOfMonth.matches dayOfMonth && s.month.matches month &&
  s.dayOfWeek.matches dayOfWeek

/-! ## Theorems -/

/-! ### Sorting lemmas -/

theorem insertByKeyDesc_perm {α : Type} (key : α → Int) (a : α) (l : List α) :
    List.Perm (insertByKeyDesc key a l) (a :: l) := by
  induction l with
  | nil => simp [insertByKeyDesc]
  | cons x xs ih =>
    simp only [insertByKeyDesc]
    split
    · exact List.Perm.refl _
    · exact List.Perm.trans (List.Perm.cons x ih) (List.Perm.swap a x xs)

theorem sortByKeyDesc_perm {α : Type} (key : α → Int) (l : List α) :
    List.Perm (sortByKeyDesc key l) l := by
  induction l with
  | nil => exact List.Perm.refl _
  | cons x xs ih =>
    exact List.Perm.trans (insertByKeyDesc_perm key x _) (List.Perm.cons x ih)

theorem insertByKeyDesc_pairwise {α : Type} (key : α → Int) (a : α) (l : List α)
    (h : List.Pairwise (fun x y => key y ≤ key x) l) :
    List.Pairwise (fun x y => key y ≤ key x) (insertByKeyDesc key a l) := by
  induction l with
  | nil => simp [insertByKeyDesc]
  | cons x xs ih =>
    rcases List.pairwise_cons.mp h with ⟨hx, hxs⟩
    simp only [insertByKeyDesc]
    split
    · rename_i hle
      refine List.pairwise_cons.mpr ⟨?_, h⟩
      intro b hb
      rcases List.mem_cons.mp hb with rfl | hb2
      · exact hle
      · exact le_trans (hx b hb2) hle
    · rename_i hgt
      refine List.pairwise_cons.mpr ⟨?_, ih hxs⟩
      intro b hb
      have hmem := (insertByKeyDesc_perm key a xs).mem_iff.mp hb
      rcases List.mem_cons.mp hmem with rfl | hb2
      · omega
      · exact hx b hb2

theorem sortByKeyDesc_pairwise {α : Type} (key : α → Int) (l : List α) :
    List.Pairwise (fun x y => key y ≤ key x) (sortByKeyDesc key l) := by
  induction l with
  | nil => simp [sortByKeyDesc]
  | cons x xs ih => exact insertByKeyDesc_pairwise key x _ ih

/-! ### C4 and C5 -/

/-- C4: `filteredData` is a permutation of the rows of the selected
node within the trailing window, it is sorted descending by timestamp,
and a row is in the result exactly when it is a reading of the selected
location no older than `now - timeRange` minutes. -/
theorem windowed_filter_ok (data : List SensorRow) (sel : String)
    (timeRange now : Int) :
    List.Perm (filteredData data sel timeRange now)
      (data.filter (fun d =>
        d.node_name == sel && decide (now - timeRange * 60 * 1000 ≤ d.timestamp))) ∧
    List.Pairwise (fun a b => b.timestamp ≤ a.timestamp)
      (filteredData data sel timeRange now) ∧
    (∀ r, r ∈ filteredData data sel timeRange now ↔
      r ∈ data ∧ r.node_name = sel ∧ now - timeRange * 60 * 1000 ≤ r.timestamp) := by
  refine ⟨sortByKeyDesc_perm _ _, sortByKeyDesc_pairwise _ _, ?_⟩
  intro r
  rw [filteredData, (sortByKeyDesc_perm _ _).mem_iff, List.mem_filter]
  simp [and_assoc]

/-- C5: the latest value is the head of the windowed descending filter
result when non-empty and the defined zero value otherwise, and the
aggregation operations on an empty reading set return empty series and
zero, as total functions. -/
theorem latest_value_ok :
    (∀ (data : List SensorRow) (sel : String) (timeRange now : Int)
       (x : SensorRow) (rest : List SensorRow),
       filteredData data sel timeRange now = x :: rest →
       latestValue (filteredData data sel timeRange now) = x.sensor_value) ∧
    latestValue [] = 0 ∧
    (∀ (sel : String) (timeRange now : Int), filteredData [] sel timeRange now = []) ∧
    (∀ (sel : String) (timeRange now : Int),
      latestValue (filteredData [] sel timeRange now) = 0) ∧
    (∀ sel : String, calculateDailyAverage sel [] = []) ∧
    (∀ sel : String, calculateDailyMinMax sel [] = []) := by
  refine ⟨?_, rfl, fun sel t n => rfl, fun sel t n => rfl,
    fun sel => rfl, fun sel => rfl⟩
  intro data sel timeRange now x rest h
  rw [h]
  rfl

/-- Witness for C5 on a one-row reading set whose single reading lies
inside the window. -/
theorem latest_value_ok_witness :
    latestValue (filteredData [⟨1, "Qwave", 5, 100⟩] "Qwave" 5 100) =
      (⟨1, "Qwave", 5, 100⟩ : SensorRow).sensor_value :=
  latest_value_ok.1 [⟨1, "Qwave", 5, 100⟩] "Qwave" 5 100
    ⟨1, "Qwave", 5, 100⟩ [] (by decide)

/-! ### Grouping lemmas -/

theorem lookupA_updAssoc_self {β : Type} (step : β → ℚ → β) (init : ℚ → β)
    (k : Int) (v : ℚ) (g : List (Int × β)) :
    lookupA (updAssoc step init k v g) k =
      some ((lookupA g k).elim (init v) (fun a => step a v)) := by
  induction g with
  | nil => simp [updAssoc, lookupA]
  | cons p rest ih =>
    obtain ⟨k1, a⟩ := p
    by_cases hk : k1 = k
    · subst hk
      simp [updAssoc, lookupA]
    · simp [updAssoc, lookupA, hk, ih]

theorem lookupA_updAssoc_ne {β : Type} (step : β → ℚ → β) (init : ℚ → β)
    (k k2 : Int) (v : ℚ) (g : List (Int × β)) (h : k2 ≠ k) :
    lookupA (updAssoc step init k v g) k2 = lookupA g k2 := by
  induction g with
  | nil => simp [updAssoc, lookupA, Ne.symm h]
  | cons p rest ih =>
    obtain ⟨k1, a⟩ := p
    by_cases hk : k1 = k
    · subst hk
      simp [updAssoc, lookupA, Ne.symm h]
    · simp [updAssoc, lookupA, hk, ih]

theorem lookupA_foldGroups {β : Type} (step : β → ℚ → β) (init : ℚ → β)
    (pairs : List (Int × ℚ)) (g : List (Int × β)) (k : Int) :
    lookupA (foldGroups step init g pairs) k =
      match lookupA g k, valuesOf k pairs with
      | none, [] => none
      | none, v :: vs => some (vs.foldl step (init v))
      | some a, vs => some (vs.foldl step a) := by
  induction pairs generalizing g with
  | nil =>
    cases h : lookupA g k <;> simp [foldGroups, valuesOf, h]
  | cons p rest ih =>
    obtain ⟨k1, v1⟩ := p
    have hfold : foldGroups step init g ((k1, v1) :: rest) =
        foldGroups step init (updAssoc step init k1 v1 g) rest := rfl
    by_cases hk : k1 = k
    · subst hk
      rw [hfold, ih, lookupA_updAssoc_self]
      have hv : valuesOf k1 ((k1, v1) :: rest) = v1 :: valuesOf k1 rest := by
        simp [valuesOf]
      rw [hv]
      cases h : lookupA g k1 <;> simp
    · rw [hfold, ih, lookupA_updAssoc_ne _ _ _ _ _ _ (fun he => hk he.symm)]
      have hv : valuesOf k ((k1, v1) :: rest) = valuesOf k rest := by
        simp [valuesOf, hk]
      rw [hv]

theorem lookupA_eq_none_iff {β : Type} (g : List (Int × β)) (k : Int) :
    lookupA g k = none ↔ k ∉ g.map Prod.fst := by
  induction g with
  | nil => simp [lookupA]
  | cons p rest ih =>
    obtain ⟨k1, a⟩ := p
    by_cases hk : k1 = k
    · subst hk
      simp [lookupA]
    · simp [lookupA, hk, ih, Ne.symm hk]

theorem mem_keys_updAssoc {β : Type} (step : β → ℚ → β) (init : ℚ → β)
    (k k2 : Int) (v : ℚ) (g : List (Int × β)) :
    k2 ∈ (updAssoc step init k v g).map Prod.fst ↔
      k2 = k ∨ k2 ∈ g.map Prod.fst := by
  induction g with
  | nil => simp [updAssoc]
  | cons p rest ih =>
    obtain ⟨k1, a⟩ := p
    simp only [updAssoc]
    split
    · rename_i hk
      subst hk
      simp only [List.map_cons, List.mem_cons]
      tauto
    · rename_i hk
      simp only [List.map_cons, List.mem_cons, ih]
      tauto

theorem nodup_keys_updAssoc {β : Type} (step : β → ℚ → β) (init : ℚ → β)
    (k : Int) (v : ℚ) (g : List (Int × β))
    (h : (g.map Prod.fst).Nodup) :
    ((updAssoc step init k v g).map Prod.fst).Nodup := by
  induction g with
  | nil => simp [updAssoc]
  | cons p rest ih =>
    obtain ⟨k1, a⟩ := p
    have h2 : k1 ∉ rest.map Prod.fst ∧ (rest.map Prod.fst).Nodup := by
      rw [List.map_cons, List.nodup_cons] at h
      exact h
    by_cases hk : k1 = k
    · subst hk
      simpa [updAssoc] using h
    · simp only [updAssoc, if_neg hk, List.map_cons]
      refine List.nodup_cons.mpr ⟨?_, ih h2.2⟩
      intro hmem
      rcases (mem_keys_updAssoc step init k k1 v rest).mp hmem with h1 | h1
      · exact hk h1
      · exact h2.1 h1

theorem nodup_keys_foldGroups {β : Type} (step : β → ℚ → β) (init : ℚ → β)
    (pairs : List (Int × ℚ)) (g : List (Int × β))
    (h : (g.map Prod.fst).Nodup) :
    ((foldGroups step init g pairs).map Prod.fst).Nodup := by
  induction pairs generalizing g with
  | nil => simpa [foldGroups] using h
  | cons p rest ih =>
    exact ih (updAssoc step init p.1 p.2 g) (nodup_keys_updAssoc _ _ _ _ _ h)

theorem lookupA_of_mem_nodup {β : Type} (g : List (Int × β))
    (hnd : (g.map Prod.fst).Nodup) (k : Int) (a : β) (h : (k, a) ∈ g) :
    lookupA g k = some a := by
  induction g with
  | nil => cases h
  | cons p rest ih =>
    obtain ⟨k1, b⟩ := p
    have h2 : k1 ∉ rest.map Prod.fst ∧ (rest.map Prod.fst).Nodup := by
      rw [List.map_cons, List.nodup_cons] at hnd
      exact hnd
    rcases List.mem_cons.mp h with heq | hmem
    · cases heq
      simp [lookupA]
    · have hk : k1 ≠ k := by
        intro he
        subst he
        exact h2.1 (by simpa using List.mem_map_of_mem Prod.fst hmem)
      simp [lookupA, hk, ih h2.2 hmem]

/-! ### Fold lemmas for the two accumulators -/

theorem foldl_avgStep (vs : List ℚ) (a : AvgAcc) :
    vs.foldl avgStep a = ⟨a.total + vs.sum, a.count + (vs.length : ℚ)⟩ := by
  induction vs generalizing a with
  | nil => simp
  | cons v vs ih =>
    rw [List.foldl_cons, ih]
    simp only [avgStep, List.sum_cons, List.length_cons, AvgAcc.mk.injEq]
    constructor
    · ring
    · push_cast
      ring

theorem foldl_mmStep (vs : List ℚ) (a : MinMaxAcc) :
    vs.foldl mmStep a = ⟨vs.foldl min a.minv, vs.foldl max a.maxv⟩ := by
  induction vs generalizing a with
  | nil => rfl
  | cons v vs ih =>
    rw [List.foldl_cons, ih]
    rfl

theorem foldl_min_le_init (vs : List ℚ) : ∀ x : ℚ, vs.foldl min x ≤ x := by
  induction vs with
  | nil => intro x; exact le_refl x
  | cons v vs ih =>
    intro x
    exact le_trans (ih (min x v)) (min_le_left x v)

theorem foldl_min_le (vs : List ℚ) :
    ∀ x u : ℚ, u ∈ x :: vs → vs.foldl min x ≤ u := by
  induction vs with
  | nil =>
    intro x u hu
    rw [List.mem_singleton] at hu
    subst hu
    exact le_refl u
  | cons v vs ih =>
    intro x u hu
    rw [List.foldl_cons]
    rcases List.mem_cons.mp hu with rfl | hu2
    · exact le_trans (foldl_min_le_init vs (min u v)) (min_le_left u v)
    · rcases List.mem_cons.mp hu2 with rfl | hu3
      · exact le_trans (foldl_min_le_init vs (min x u)) (min_le_right x u)
      · exact ih (min x v) u (List.mem_cons_of_mem _ hu3)

theorem foldl_min_mem (vs : List ℚ) : ∀ x : ℚ, vs.foldl min x ∈ x :: vs := by
  induction vs with
  | nil => intro x; simp
  | cons v vs ih =>
    intro x
    rw [List.foldl_cons]
    rcases List.mem_cons.mp (ih (min x v)) with h | h
    · rcases min_choice x v with h2 | h2 <;> rw [h, h2] <;> simp
    · simp [List.mem_cons_of_mem, h]

theorem foldl_le_max_init (vs : List ℚ) : ∀ x : ℚ, x ≤ vs.foldl max x := by
  induction vs with
  | nil => intro x; exact le_refl x
  | cons v vs ih =>
    intro x
    exact le_trans (le_max_left x v) (ih (max x v))

theorem foldl_le_max (vs : List ℚ) :
    ∀ x u : ℚ, u ∈ x :: vs → u ≤ vs.foldl max x := by
  induction vs with
  | nil =>
    intro x u hu
    rw [List.mem_singleton] at hu
    subst hu
    exact le_refl u
  | cons v vs ih =>
    intro x u hu
    rw [List.foldl_cons]
    rcases List.mem_cons.mp hu with rfl | hu2
    · exact le_trans (le_max_left u v) (foldl_le_max_init vs (max u v))
    · rcases List.mem_cons.mp hu2 with rfl | hu3
      · exact le_trans (le_max_right x u) (foldl_le_max_init vs (max x u))
      · exact ih (max x v) u (List.mem_cons_of_mem _ hu3)

theorem foldl_max_mem (vs : List ℚ) : ∀ x : ℚ, vs.foldl max x ∈ x :: vs := by
  induction vs with
  | nil => intro x; simp
  | cons v vs ih =>
    intro x
    rw [List.foldl_cons]
    rcases List.mem_cons.mp (ih (max x v)) with h | h
    · rcases max_choice x v with h2 | h2 <;> rw [h, h2] <;> simp
    · simp [List.mem_cons_of_mem, h]

/-! ### Bridging the dashboard functions to the generic grouping -/

theorem valuesOf_map (sel : String) (d : Int) (data : List SensorRow) :
    valuesOf d ((data.filter (fun item => item.node_name == sel)).map
      (fun item => (dayKey item.timestamp, item.sensor_value))) =
      dayValues sel d data := by
  induction data with
  | nil => rfl
  | cons r rest ih =>
    by_cases h1 : r.node_name = sel
    · by_cases h2 : dayKey r.timestamp = d
      · simp [valuesOf, dayValues, List.filter_cons, h1, h2] at ih ⊢
        exact ih
      · simp [valuesOf, dayValues, List.filter_cons, h1, h2] at ih ⊢
        exact ih
    · simp [valuesOf, dayValues, List.filter_cons, h1] at ih ⊢
      exact ih

theorem calcAvg_eq (sel : String) (data : List SensorRow) :
    calculateDailyAverage sel data =
      (foldGroups avgStep avgInit []
        ((data.filter (fun item => item.node_name == sel)).map
          (fun item => (dayKey item.timestamp, item.sensor_value)))).map
        (fun p => (p.1, p.2.total / p.2.count)) := by
  simp only [calculateDailyAverage, foldGroups, List.foldl_map]

theorem calcMinMax_eq (sel : String) (data : List SensorRow) :
    calculateDailyMinMax sel data =
      (foldGroups mmStep mmInit []
        ((data.filter (fun item => item.node_name == sel)).map
          (fun item => (dayKey item.timestamp, item.sensor_value)))).map
        (fun p => (p.1, p.2.minv, p.2.maxv)) := by
  simp only [calculateDailyMinMax, foldGroups, List.foldl_map]

theorem lookupA_grouped {β : Type} (step : β → ℚ → β) (init : ℚ → β)
    (sel : String) (data : List SensorRow) (d : Int) :
    lookupA (foldGroups step init []
      ((data.filter (fun item => item.node_name == sel)).map
        (fun item => (dayKey item.timestamp, item.sensor_value)))) d =
      match dayValues sel d data with
      | [] => none
      | v :: vs => some (vs.foldl step (init v)) := by
  have h := lookupA_foldGroups step init
    ((data.filter (fun item => item.node_name == sel)).map
      (fun item => (dayKey item.timestamp, item.sensor_value))) [] d
  rw [valuesOf_map] at h
  rw [h]
  cases dayValues sel d data <;> rfl

theorem mem_keys_grouped {β : Type} (step : β → ℚ → β) (init : ℚ → β)
    (sel : String) (data : List SensorRow) (d : Int) :
    d ∈ ((foldGroups step init []
      ((data.filter (fun item => item.node_name == sel)).map
        (fun item => (dayKey item.timestamp, item.sensor_value)))).map Prod.fst) ↔
      dayValues sel d data ≠ [] := by
  rw [← not_iff_not, not_ne_iff, ← lookupA_eq_none_iff, lookupA_grouped]
  cases hdv : dayValues sel d data <;> simp

/-! ### C3 -/

/-- C3: for any reading set and selected location, daily average has one
point per distinct Bangkok calendar day present among that location's
readings, carrying the arithmetic mean of the day's values; daily
min/max uses the same grouping, carrying per day the minimum and
maximum value observed. -/
theorem daily_aggregation_ok (sel : String) (data : List SensorRow) :
    ((calculateDailyAverage sel data).map Prod.fst).Nodup ∧
    (∀ d : Int, d ∈ (calculateDailyAverage sel data).map Prod.fst ↔
      dayValues sel d data ≠ []) ∧
    (∀ (d : Int) (q : ℚ), (d, q) ∈ calculateDailyAverage sel data →
      q = (dayValues sel d data).sum / ((dayValues sel d data).length : ℚ)) ∧
    ((calculateDailyMinMax sel data).map Prod.fst).Nodup ∧
    (∀ d : Int, d ∈ (calculateDailyMinMax sel data).map Prod.fst ↔
      dayValues sel d data ≠ []) ∧
    (∀ (d : Int) (lo hi : ℚ), (d, lo, hi) ∈ calculateDailyMinMax sel data →
      lo ∈ dayValues sel d data ∧ (∀ u ∈ dayValues sel d data, lo ≤ u) ∧
      hi ∈ dayValues sel d data ∧ (∀ u ∈ dayValues sel d data, u ≤ hi)) := by
  have hkeysAvg : (calculateDailyAverage sel data).map Prod.fst =
      (foldGroups avgStep avgInit []
        ((data.filter (fun item => item.node_name == sel)).map
          (fun item => (dayKey item.timestamp, item.sensor_value)))).map Prod.fst := by
    rw [calcAvg_eq, List.map_map]
    rfl
  have hkeysMM : (calculateDailyMinMax sel data).map Prod.fst =
      (foldGroups mmStep mmInit []
        ((data.filter (fun item => item.node_name == sel)).map
          (fun item => (dayKey item.timestamp, item.sensor_value)))).map Prod.fst := by
    rw [calcMinMax_eq, List.map_map]
    rfl
  refine ⟨?_, ?_, ?_, ?_, ?_, ?_⟩
  · rw [hkeysAvg]
    exact nodup_keys_foldGroups _ _ _ _ (by simp)
  · intro d
    rw [hkeysAvg]
    exact mem_keys_grouped _ _ _ _ _
  · intro d q hm
    rw [calcAvg_eq] at hm
    obtain ⟨p, hp, heq⟩ := List.mem_map.mp hm
    obtain ⟨d2, a⟩ := p
    rw [Prod.mk.injEq] at heq
    obtain ⟨rfl, rfl⟩ := heq
    have hl := lookupA_of_mem_nodup _
      (nodup_keys_foldGroups avgStep avgInit _ _ (by simp)) d2 a hp
    rw [lookupA_grouped] at hl
    cases hdv : dayValues sel d2 data with
    | nil =>
      rw [hdv] at hl
      cases hl
    | cons v vs =>
      rw [hdv] at hl
      have ha : vs.foldl avgStep (avgInit v) = a := Option.some.inj hl
      rw [foldl_avgStep] at ha
      rw [← ha]
      simp only [avgInit, List.sum_cons, List.length_cons]
      push_cast
      ring_nf
  · rw [hkeysMM]
    exact nodup_keys_foldGroups _ _ _ _ (by simp)
  · intro d
    rw [hkeysMM]
    exact mem_keys_grouped _ _ _ _ _
  · intro d lo hi hm
    rw [calcMinMax_eq] at hm
    obtain ⟨p, hp, heq⟩ := List.mem_map.mp hm
    obtain ⟨d2, a⟩ := p
    rw [Prod.mk.injEq] at heq
    obtain ⟨rfl, heq2⟩ := heq
    rw [Prod.mk.injEq] at heq2
    obtain ⟨rfl, rfl⟩ := heq2
    have hl := lookupA_of_mem_nodup _
      (nodup_keys_foldGroups mmStep mmInit _ _ (by simp)) d2 a hp
    rw [lookupA_grouped] at hl
    cases hdv : dayValues sel d2 data with
    | nil =>
      rw [hdv] at hl
      cases hl
    | cons v vs =>
      rw [hdv] at hl
      have ha : vs.foldl mmStep (mmInit v) = a := Option.some.inj hl
      rw [foldl_mmStep] at ha
      rw [← ha]
      simp only [mmInit]
      exact ⟨foldl_min_mem vs v, fun u hu => foldl_min_le vs v u hu,
        foldl_max_mem vs v, fun u hu => foldl_le_max vs v u hu⟩

/-- Witness for C3: on the specification's example reading set, day 0 is
among the daily-average output days because it has readings. -/
theorem daily_aggregation_ok_witness :
    (0 : ℤ) ∈ (calculateDailyAverage "Qwave" exampleRows).map Prod.fst :=
  ((daily_aggregation_ok "Qwave" exampleRows).2.1 0).mpr (by decide)

/-! ### C6: retention -/

/-- C6: one purge run at `now` keeps exactly the rows no older than the
24-hour horizon (deleting the rest); on the spec's example rows at
`now-25h` and `now-1h` only the younger row remains; and the purge's
cron schedule `"0 0 * * *"` fires at exactly one wall-clock minute per
day (00:00). -/
theorem retention_purge_ok (now : Int) (rows : List StoredRow) :
    (∀ r, r ∈ deleteOldSensorData now rows ↔
      r ∈ rows ∧ now - 86400000 ≤ r.timestamp) ∧
    (∀ r25 r1 : StoredRow, r25.timestamp = now - 25 * 3600000 →
      r1.timestamp = now - 1 * 3600000 →
      deleteOldSensorData now [r25, r1] = [r1]) ∧
    (∀ minute hour dayOfMonth month dayOfWeek : Nat,
      minute < 60 → hour < 24 →
      (sensorCleanupSchedule.fires minute hour dayOfMonth month dayOfWeek = true ↔
        minute = 0 ∧ hour = 0)) := by
  refine ⟨?_, ?_, ?_⟩
  · intro r
    rw [deleteOldSensorData, List.mem_filter]
    simp [not_lt]
  · intro r25 r1 h25 h1
    have hd25 : decide (r25.timestamp < now - 86400000) = true := by
      rw [decide_eq_true_eq]
      omega
    have hd1 : decide (r1.timestamp < now - 86400000) = false := by
      rw [decide_eq_false_iff_not]
      omega
    rw [deleteOldSensorData]
    simp [List.filter_cons, hd25, hd1]
  · intro minute hour dayOfMonth month dayOfWeek hm hh
    simp only [CronSchedule.fires, sensorCleanupSchedule, CronField.matches,
      Bool.and_eq_true, beq_iff_eq, eq_self_iff_true, and_true, true_and]
    omega

/-- Witness for C6: at `now = 0`, of a row 25 hours old and a row 1 hour
old only the 1-hour-old row survives the purge. -/
theorem retention_purge_ok_witness :
    deleteOldSensorData 0
      [⟨1, "38", none, none, none, none, 0 - 25 * 3600000⟩,
       ⟨2, "38", none, none, none, none, 0 - 1 * 3600000⟩] =
      [⟨2, "38", none, none, none, none, 0 - 1 * 3600000⟩] :=
  (retention_purge_ok 0
      [⟨1, "38", none, none, none, none, 0 - 25 * 3600000⟩,
       ⟨2, "38", none, none, none, none, 0 - 1 * 3600000⟩]).2.1
    ⟨1, "38", none, none, none, none, 0 - 25 * 3600000⟩
    ⟨2, "38", none, none, none, none, 0 - 1 * 3600000⟩ rfl rfl

/-! ### C7: ingestion validation -/

/-- Counterexample to C7: a request missing the location label
(`nodeName` absent) is not rejected with a client error and is not kept
out of the store: the handler answers 201 and one row is appended. -/
theorem ingest_no_validation_counterexample :
    (postSensorData ⟨[], 0⟩
      ⟨some "38", some "1", none, some "WaterLevel", some 1024⟩ 0).2.status = 201 ∧
    (postSensorData ⟨[], 0⟩
      ⟨some "38", some "1", none, some "WaterLevel", some 1024⟩ 0).1.rows.length = 1 :=
  ⟨rfl, rfl⟩

/-- C7 amended: the ingestion endpoint performs no field-presence
validation.  A request missing the owner reference fails the store's
`NOT NULL` constraint: it is answered with a 500 server error (not a
client error) and no row is stored.  A request missing any of the other
fields is inserted as a row with NULL in that column and acknowledged
with 201. -/
theorem ingest_validation_amended (st : Store) (body : SensorPostBody) (now : Int) :
    (body.userId = none →
      postSensorData st body now = (st, ⟨500, "Error saving sensor data"⟩)) ∧
    (∀ uid, body.userId = some uid →
      postSensorData st body now =
        (⟨st.rows ++ [⟨st.nextId, uid, body.esp32Serial, body.nodeName,
          body.sensorType, body.value, now⟩], st.nextId + 1⟩,
         ⟨201, "Sensor data saved successfully"⟩)) := by
  constructor
  · intro h
    simp [postSensorData, insertSensorData, h]
  · intro uid h
    simp [postSensorData, insertSensorData, h]

/-- Witness for the amended C7: a body with no fields at all is answered
500 and the store is unchanged. -/
theorem ingest_validation_amended_witness :
    postSensorData ⟨[], 0⟩ ⟨none, none, none, none, none⟩ 0 =
      (⟨[], 0⟩, ⟨500, "Error saving sensor data"⟩) :=
  (ingest_validation_amended ⟨[], 0⟩ ⟨none, none, none, none, none⟩ 0).1 rfl

/-! ### C8: no idempotence -/

/-- C8: ingestion deduplicates nothing: a successful POST appends exactly
one row, and POSTing the byte-identical payload twice appends two rows
that are distinct (their primary keys differ) while carrying the same
payload fields. -/
theorem ingest_not_idempotent (st : Store) (body : SensorPostBody)
    (uid : String) (h : body.userId = some uid) (now1 now2 : Int) :
    (postSensorData st body now1).1.rows.length = st.rows.length + 1 ∧
    (postSensorData (postSensorData st body now1).1 body now2).1.rows.length =
      st.rows.length + 2 ∧
    (∃ r1 r2 : StoredRow,
      (postSensorData (postSensorData st body now1).1 body now2).1.rows =
        st.rows ++ [r1, r2] ∧
      r1.id ≠ r2.id ∧ r1.user_id = uid ∧ r2.user_id = uid ∧
      r1.node_name = body.nodeName ∧ r2.node_name = body.nodeName ∧
      r1.sensor_value = body.value ∧ r2.sensor_value = body.value) := by
  refine ⟨?_, ?_, ?_⟩
  · simp [postSensorData, insertSensorData, h]
  · simp [postSensorData, insertSensorData, h]
  · refine ⟨⟨st.nextId, uid, body.esp32Serial, body.nodeName, body.sensorType,
      body.value, now1⟩,
      ⟨st.nextId + 1, uid, body.esp32Serial, body.nodeName, body.sensorType,
      body.value, now2⟩, ?_, by simp, rfl, rfl, rfl, rfl, rfl, rfl⟩
    simp [postSensorData, insertSensorData, h]

/-- Witness for C8: posting into an empty store yields one row. -/
theorem ingest_not_idempotent_witness :
    (postSensorData ⟨[], 0⟩
      ⟨some "38", some "1", some "Qwave", some "WaterLevel", some 1024⟩ 0).1.rows.length =
      (⟨[], 0⟩ : Store).rows.length + 1 :=
  (ingest_not_idempotent ⟨[], 0⟩
    ⟨some "38", some "1", some "Qwave", some "WaterLevel", some 1024⟩ "38" rfl 0 0).1

/-! ### C9: owner-scoped reads -/

/-- C9: the query result for the credential-resolved owner contains
exactly that owner's rows, and a row of a different owner is never in
the result. -/
theorem read_owner_scoped (st : Store) (ownerId : String) :
    (∀ r, r ∈ getSensorData st ownerId ↔ r ∈ st.rows ∧ r.user_id = ownerId) ∧
    (∀ r : StoredRow, r.user_id ≠ ownerId → r ∉ getSensorData st ownerId) := by
  have hmem : ∀ r, r ∈ getSensorData st ownerId ↔
      r ∈ st.rows ∧ r.user_id = ownerId := by
    intro r
    rw [getSensorData, (sortByKeyDesc_perm _ _).mem_iff, List.mem_filter]
    simp
  exact ⟨hmem, fun r hne hmem2 => hne ((hmem r).mp hmem2).2⟩

/-- Witness for C9: a row owned by "99" is invisible to owner "38". -/
theorem read_owner_scoped_witness :
    (⟨1, "99", none, none, none, none, 0⟩ : StoredRow) ∉
      getSensorData ⟨[⟨1, "99", none, none, none, none, 0⟩], 2⟩ "38" :=
  (read_owner_scoped ⟨[⟨1, "99", none, none, none, none, 0⟩], 2⟩ "38").2
    ⟨1, "99", none, none, none, none, 0⟩ (by decide)

/-! ### C10: unauthenticated ingestion -/

/-- C10: the ingestion route carries no authentication middleware (while
the query route does), so an uncredentialed caller can insert a reading
attributed to any ownerId, and that row then appears in that owner's
credential-gated query result. -/
theorem ingest_unauthenticated (st : Store) (body : SensorPostBody)
    (uid : String) (h : body.userId = some uid) (now : Int) :
    usesAuthMiddleware SensorRoute.ingest = false ∧
    usesAuthMiddleware SensorRoute.query = true ∧
    (⟨st.nextId, uid, body.esp32Serial, body.nodeName, body.sensorType,
      body.value, now⟩ : StoredRow) ∈
      getSensorData (postSensorData st body now).1 uid := by
  refine ⟨rfl, rfl, ?_⟩
  have hpost : (postSensorData st body now).1.rows =
      st.rows ++ [⟨st.nextId, uid, body.esp32Serial, body.nodeName,
        body.sensorType, body.value, now⟩] := by
    simp [postSensorData, insertSensorData, h]
  rw [getSensorData, (sortByKeyDesc_perm _ _).mem_iff, List.mem_filter, hpost]
  simp

/-- Witness for C10: a forged owner "38" reading posted without any
credential is served back to owner "38". -/
theorem ingest_unauthenticated_witness :
    usesAuthMiddleware SensorRoute.ingest = false :=
  (ingest_unauthenticated ⟨[], 0⟩
    ⟨some "38", some "1", some "Qwave", some "WaterLevel", some 1024⟩ "38" rfl 0).1


/-- C1: with a correct start byte, a 5-byte frame decodes to the
little-endian value `b3*256 + b2`, bounded by 65535, and the location
label is the image of byte 1 under the fixed 4-entry table, everything
else mapping to "Unknown". -/
theorem frame_decode_ok (b1 b2 b3 b4 : Nat) (h2 : b2 < 256) (h3 : b3 < 256) :
    feedBytes [] [0x3A, b1, b2, b3, b4] =
      ([], [⟨USER_ID, ESP32_SERIAL_NUMBER, getNodeName (Char.ofNat b1),
             SENSOR_TYPE, b3 * 256 + b2⟩]) ∧
    b3 * 256 + b2 ≤ 65535 ∧
    getNodeName 'A' = "Qwave" ∧ getNodeName 'B' = "Factory" ∧
    getNodeName 'C' = "Warehouse" ∧ getNodeName 'D' = "Lab" ∧
    (∀ c : Char, c ≠ 'A' → c ≠ 'B' → c ≠ 'C' → c ≠ 'D' →
      getNodeName c = "Unknown") := by
  refine ⟨?_, by omega, rfl, rfl, rfl, rfl, ?_⟩
  · have hval : ((b3 <<< 8) ||| b2) = b3 * 256 + b2 := by
      rw [Nat.shiftLeft_eq]
      have := (Nat.mul_add_lt_is_or (i := 8) (by omega : b2 < 2 ^ 8) b3).symm
      calc b3 * 2 ^ 8 ||| b2 = 2 ^ 8 * b3 ||| b2 := by ring_nf
        _ = 2 ^ 8 * b3 + b2 := this
        _ = b3 * 256 + b2 := by ring
    simp [feedBytes, feedByte, hval]
  · intro c hA hB hC hD
    simp [getNodeName, hA, hB, hC, hD]

/-- Witness for C1 at the frame `3A 41 00 04 00` (node 'A', value 1024). -/
theorem frame_decode_ok_witness :
    feedBytes [] [0x3A, 65, 0, 4, 0] =
      ([], [⟨USER_ID, ESP32_SERIAL_NUMBER, getNodeName (Char.ofNat 65),
             SENSOR_TYPE, 4 * 256 + 0⟩]) ∧
    4 * 256 + 0 ≤ 65535 ∧
    getNodeName 'A' = "Qwave" ∧ getNodeName 'B' = "Factory" ∧
    getNodeName 'C' = "Warehouse" ∧ getNodeName 'D' = "Lab" ∧
    (∀ c : Char, c ≠ 'A' → c ≠ 'B' → c ≠ 'C' → c ≠ 'D' →
      getNodeName c = "Unknown") :=
  frame_decode_ok 65 0 4 0 (by decide) (by decide)

/-- C2: a 5-byte window with a wrong start byte produces no payload and
resets the buffer to empty, so the rest of the stream is processed
exactly as if fed to a fresh decoder. -/
theorem bad_start_discards (w rest : List Nat) (hlen : w.length = 5)
    (hbad : w.headD 0 ≠ 0x3A) :
    feedBytes [] (w ++ rest) = feedBytes [] rest := by
  match w, hlen with
  | [a, b, c, d, e], _ =>
    have ha : a ≠ 0x3A := by simpa using hbad
    simp [feedBytes, feedByte, ha]

/-- Witness for C2: the garbage window `00 01 02 03 04` is discarded and
a following valid frame decodes as from a fresh buffer. -/
theorem bad_start_discards_witness :
    feedBytes [] ([0, 1, 2, 3, 4] ++ [0x3A, 65, 0, 4, 0]) =
      feedBytes [] [0x3A, 65, 0, 4, 0] :=
  bad_start_discards [0, 1, 2, 3, 4] [0x3A, 65, 0, 4, 0] (by decide) (by decide)

end WLS
